import Mathlib

/-!
Verification development for the InnerFS shadow filesystem.

This file gives a shallow embedding, in Lean 4, of the parts of the Rust
source that the checked properties talk about:

* the session cache (`src/storage_interface.rs`): `open`, `read`, `write`,
  `close`, `flush`, `remove`, `cleanup` over an in-memory map of open files;
* the open-flag decoding (`src/fuse_fs.rs`, `OpenFlags::from`);
* the metadata index (`src/metadata_db.rs`): file rows, directory entries,
  `update_file`, `add_directory_entry`, `remove_directory_entry`,
  `remove_file`, `get_file_path`, `find_parent_directory`;
* the storage-key derivation (`src/config.rs`, `StorageConfig::path_of`);
* the per-object encryption descriptor (`src/obj_storage/encrypted_object_storage.rs`,
  `FileKey::serialize` / `FileKey::deserialize`);
* the filesystem service (`src/sql_fs.rs`): `unlink` and its cleanup pass.

Rust strings are modelled as `List Char`, byte buffers as `List Nat`
(each element a byte value), `i64` as `Int` and bit-flag words as `Nat`.
External collaborators hidden behind trait objects or external crates
(the object-storage chain, the SHA-512 implementation, the wall clock)
are parameters of the embedding, exactly as they are parameters
(`Box<dyn ObjectStorage>`, `hmac_sha512`, `current_timestamp`) of the
Rust code.
-/

namespace InnerFS

/-- Rust `String` / `&str`, modelled as its sequence of characters. -/
abbrev Str := List Char

/-- Rust `Vec<u8>` / `&[u8]`, modelled as a list of byte values. -/
abbrev Bytes := List Nat

/-! ## Constants (from `libc` for the Linux target, and `metadata_db.rs`) -/

def O_RDONLY : Nat := 0
def O_WRONLY : Nat := 1
def O_RDWR : Nat := 2
def O_CREAT : Nat := 64
def O_EXCL : Nat := 128
def O_NOCTTY : Nat := 256
def O_TRUNC : Nat := 512
def O_APPEND : Nat := 1024
def O_NONBLOCK : Nat := 2048
def O_DSYNC : Nat := 4096
def O_SYNC : Nat := 1052672
def O_NOATIME : Nat := 262144
def O_PATH : Nat := 2097152
def O_TMPFILE : Nat := 4259840

def ROOT_DIRECTORY_ID : Int := 1
def FILE_KIND_REGULAR : Int := 0
def FILE_KIND_DIRECTORY : Int := 1

/-! ## Data model (`metadata_db.rs::FileRow`, `DirectoryEntry`, `obj_storage/mod.rs::ObjInfo`) -/

/-- Embeds `metadata_db.rs::FileRow` (the `compression` column is read and written by
`storage_interface.rs` and `obj_storage/mod.rs`, so it is part of the row). -/
structure FileRow where
  id : Int
  version : Int
  kind : Int
  name : Str
  uid : Int
  gid : Int
  perms : Int
  size : Int
  sha512 : Str
  encryption_key : Str
  compression : Str
  accessed_at : Int
  created_at : Int
  updated_at : Int
  deriving DecidableEq, Repr

/-- Embeds `metadata_db.rs::DirectoryEntry`. -/
structure DirectoryEntry where
  id : Int
  directory_file_id : Int
  entry_file_id : Int
  name : Str
  kind : Int
  deriving DecidableEq, Repr

/-- Embeds `obj_storage/mod.rs::ObjInfo`. -/
structure ObjInfo where
  name : Str
  full_path : Str
  sha512 : Str
  created_at : Int
  accessed_at : Int
  updated_at : Int
  mode : Int
  size : Int
  encryption_key : Str
  compression : Str
  deriving DecidableEq, Repr

/-- Embeds `ObjInfo::new(file, full_path)`. -/
def ObjInfo.new (file : FileRow) (full_path : Str) : ObjInfo :=
  { name := file.name
    full_path := full_path
    sha512 := file.sha512
    created_at := file.created_at
    accessed_at := file.accessed_at
    updated_at := file.updated_at
    mode := file.perms
    size := file.size
    encryption_key := file.encryption_key
    compression := file.compression }

/-! ## Open flags (`fuse_fs.rs::OpenFlags`) -/

structure OpenFlags where
  read_only : Bool
  write_only : Bool
  read_write : Bool
  append : Bool
  create : Bool
  exclusive : Bool
  truncate : Bool
  no_tty : Bool
  non_block : Bool
  sync : Bool
  data_sync : Bool
  no_access_time : Bool
  path_only : Bool
  tmp_file : Bool
  other : Nat
  deriving DecidableEq, Repr

/-- The mask `O_WRONLY | O_APPEND | O_CREAT | O_EXCL | O_TRUNC | O_NOCTTY |
O_NONBLOCK | O_SYNC | O_DSYNC | O_NOATIME | O_PATH | O_TMPFILE` used for the
`other` field of `OpenFlags::from`. -/
def knownFlagsMask : Nat :=
  O_WRONLY ||| O_APPEND ||| O_CREAT ||| O_EXCL ||| O_TRUNC ||| O_NOCTTY |||
  O_NONBLOCK ||| O_SYNC ||| O_DSYNC ||| O_NOATIME ||| O_PATH ||| O_TMPFILE

/-- Embeds `fuse_fs.rs::OpenFlags::from(flags)`; the i32 complement `!mask` is the
32-bit complement of `knownFlagsMask`. -/
def OpenFlags.from (flags : Nat) : OpenFlags :=
  { read_only := flags &&& 0x03 == O_RDONLY
    write_only := flags &&& 0x03 == O_WRONLY
    read_write := flags &&& 0x03 == O_RDWR
    append := flags &&& O_APPEND != 0
    create := flags &&& O_CREAT != 0
    exclusive := flags &&& O_EXCL != 0
    truncate := flags &&& O_TRUNC != 0
    no_tty := flags &&& O_NOCTTY != 0
    non_block := flags &&& O_NONBLOCK != 0
    sync := flags &&& O_SYNC != 0
    data_sync := flags &&& O_DSYNC != 0
    no_access_time := flags &&& O_NOATIME != 0
    path_only := flags &&& O_PATH != 0
    tmp_file := flags &&& O_TMPFILE != 0
    other := flags &&& (4294967295 ^^^ knownFlagsMask) }

/-! ## Association-map helpers

`storage_interface.rs` keeps its per-open-file state in a
`HashMap<i64, StorageInterfaceCache>`; we model the map as an association
list with at most one binding per key. -/

def mapLookup {α : Type} (m : List (Int × α)) (k : Int) : Option α :=
  (m.find? (fun p => p.1 == k)).map (·.2)

/-- Embeds `HashMap::insert`: replace the binding of `k`, or append a new one. -/
def mapInsert {α : Type} (m : List (Int × α)) (k : Int) (v : α) : List (Int × α) :=
  match m with
  | [] => [(k, v)]
  | (k', v') :: rest =>
    if k' == k then (k, v) :: rest else (k', v') :: mapInsert rest k v

/-- Embeds `HashMap::remove`. -/
def mapErase {α : Type} (m : List (Int × α)) (k : Int) : List (Int × α) :=
  m.filter (fun p => !(p.1 == k))

/-- Embeds `HashSet::insert` on a list-modelled set. -/
def setInsert {α : Type} [BEq α] (s : List α) (v : α) : List α :=
  if s.contains v then s else s ++ [v]

/-! ## Session cache (`storage_interface.rs`) -/

/-- Embeds `storage_interface.rs::StorageInterfaceCache`. -/
structure StorageInterfaceCache where
  full_path : Str
  mode : Nat
  content : Bytes
  retrieved : Bool
  modified : Bool
  count : Int
  deriving DecidableEq, Repr

/-- The mutable state of `storage_interface.rs::StorageInterface`
(the object-storage trait object is carried separately, in `SIEnv`). -/
structure SIState where
  cache : List (Int × StorageInterfaceCache)
  pending_remove : List ObjInfo
  deriving DecidableEq, Repr

/-- The collaborators `StorageInterface` calls out to: the
`Box<dyn ObjectStorage>` chain (`get`/`put`/`remove`), the `hmac_sha512`
crate's hash composed with `hex::encode`, and `utils::current_timestamp`. -/
structure SIEnv where
  hexSha512 : Bytes → Str
  objGet : ObjInfo → Except String Bytes
  objPut : ObjInfo → Bytes → Except String ObjInfo
  objRemoveOk : ObjInfo → Bool
  now : Int

/-- Embeds `StorageInterface::open` (`storage_interface.rs:38-74`). Returns the
`Result<bool>` together with the state after the call. -/
def siOpen (st : SIState) (fileId : Int) (full_path : Str) (mode : Nat) :
    Except String Bool × SIState :=
  if mode &&& O_APPEND != 0 then
    (.error "Append mode is not supported", st)
  else
    let fresh : StorageInterfaceCache :=
      { full_path := full_path, mode := mode, content := [],
        retrieved := false, modified := false, count := 1 }
    match mapLookup st.cache fileId with
    | some cache =>
      let prev_flags := OpenFlags.from cache.mode
      let new_flags := OpenFlags.from mode
      -- Only allowed to open in read mode if it was previously opened in read mode
      let valid := prev_flags.read_only && new_flags.read_only &&
                   !prev_flags.exclusive && !new_flags.exclusive
      if !valid then
        (.error "File is already open in write mode", st)
      else
        let st := { st with cache := mapInsert st.cache fileId ({ cache with count := cache.count + 1 }) }
        (.ok false, { st with cache := mapInsert st.cache fileId fresh })
    | none =>
      (.ok false, { st with cache := mapInsert st.cache fileId fresh })

/-- Embeds `StorageInterface::read` (`storage_interface.rs:76-104`). The Rust
function copies into a caller buffer and returns the number of bytes
written; we return the bytes read (the caller buffer's length is `buffLen`). -/
def siRead (env : SIEnv) (st : SIState) (file : FileRow) (offset : Nat) (buffLen : Nat) :
    Except String Bytes × SIState :=
  match mapLookup st.cache file.id with
  | none => (.error "Trying to use a file that was closed or never opened", st)
  | some row =>
    if row.mode &&& O_WRONLY != 0 then
      (.error "File is write-only", st)
    else
      let fetched : Except String StorageInterfaceCache :=
        if !row.retrieved then
          match (if file.sha512 != ([] : Str) then
                   env.objGet (ObjInfo.new file row.full_path)
                 else .ok []) with
          | .error e => .error e
          | .ok content => .ok { row with content := content, retrieved := true }
        else .ok row
      match fetched with
      | .error e => (.error e, st)
      | .ok row =>
        let st := { st with cache := mapInsert st.cache file.id row }
        if offset ≥ row.content.length then
          (.ok [], st)
        else
          (.ok ((row.content.drop offset).take buffLen), st)

/-- Embeds `StorageInterface::write` (`storage_interface.rs:106-136`), including the
`offset == buff.len()` "append to the end" special case exactly as written. -/
def siWrite (st : SIState) (file : FileRow) (offset : Nat) (buff : Bytes) :
    Except String Nat × SIState :=
  match mapLookup st.cache file.id with
  | none => (.error "Trying to use a file that was closed or never opened", st)
  | some row =>
    if row.mode &&& O_RDONLY != 0 then
      (.error "File is read-only", st)
    else
      let row := if row.retrieved then { row with content := [], retrieved := false } else row
      let row :=
        if offset == buff.length then
          -- Append to the end
          { row with content := row.content ++ buff }
        else
          -- Overwrite
          let content :=
            if offset + buff.length > row.content.length then
              row.content ++ List.replicate (offset + buff.length - row.content.length) 0
            else row.content
          { row with content := content.take offset ++ buff ++ content.drop (offset + buff.length) }
      let row := { row with modified := true }
      (.ok buff.length, { st with cache := mapInsert st.cache file.id row })

/-- Builds the `ObjInfo` handed to the wrapper `put` by `flush`: the info of
the (already digest-updated) file at the session's path, with `size` set to
the buffer length (`storage_interface.rs:180-181`). -/
def flushPutArg (file : FileRow) (full_path : Str) (len : Int) : ObjInfo :=
  { ObjInfo.new file full_path with size := len }

/-- Embeds `StorageInterface::flush` (`storage_interface.rs:165-194`). The Rust
function `unwrap`s the cache entry; a missing entry (a panic in Rust) is
modelled as `none`. On success returns the `modified` flag, the updated
`FileRow` and the updated state. -/
def siFlush (env : SIEnv) (st : SIState) (file : FileRow) :
    Option (Except String Bool × FileRow × SIState) :=
  match mapLookup st.cache file.id with
  | none => none
  | some row =>
    if row.modified then
      let sha512 := env.hexSha512 row.content
      let st :=
        if file.sha512 != ([] : Str) && file.sha512 != sha512 then
          { st with pending_remove := setInsert st.pending_remove (ObjInfo.new file row.full_path) }
        else st
      let file := { file with sha512 := sha512 }
      match env.objPut (flushPutArg file row.full_path (row.content.length : Int)) row.content with
      | .error e => some (.error e, file, st)
      | .ok info =>
        let file := { file with
          encryption_key := info.encryption_key
          compression := info.compression
          size := (row.content.length : Int)
          updated_at := env.now }
        some (.ok true, file, st)
    else
      some (.ok false, file, st)

/-- Embeds `StorageInterface::close` (`storage_interface.rs:138-163`). -/
def siClose (env : SIEnv) (st : SIState) (file : FileRow) :
    Option (Except String Bool × FileRow × SIState) :=
  match mapLookup st.cache file.id with
  | none => some (.error "Trying to use a file that was closed or never opened", file, st)
  | some row =>
    let count := row.count - 1
    let st := { st with cache := mapInsert st.cache file.id ({ row with count := count }) }
    match siFlush env st file with
    | none => none
    | some (res, file, st) =>
      let st := if count ≤ 0 then { st with cache := mapErase st.cache file.id } else st
      some (res, file, st)

/-- Embeds `StorageInterface::remove` (`storage_interface.rs:196-204`). -/
def siRemove (st : SIState) (file : FileRow) (full_path : Str) :
    Except String Unit × SIState :=
  if (mapLookup st.cache file.id).isSome then
    (.error "File is open, cannot remove", st)
  else if file.sha512 != ([] : Str) then
    (.ok (), { st with pending_remove := setInsert st.pending_remove (ObjInfo.new file full_path) })
  else
    (.ok (), st)

/-- Embeds `StorageInterface::cleanup` (`storage_interface.rs:223-230`): try to
remove every pending object; on the first backend error the error is
returned and `pending_remove` is left as it was (the `clear` is only
reached after a fully successful loop). -/
def siCleanup (env : SIEnv) (st : SIState) : Except String Unit × SIState :=
  if st.pending_remove.all (fun info => env.objRemoveOk info) then
    (.ok (), { st with pending_remove := [] })
  else
    (.error "object removal failed", st)

/-! ## Metadata index (`metadata_db.rs`)

The SQLite tables `files`, `directory_entry` and `file_changes` are
modelled as lists of rows; `SELECT ... WHERE` single-row queries return the
first matching row, `UPDATE` replaces every matching row in place,
`DELETE` filters, and `INSERT` appends with the auto-increment id. -/

/-- A row of the `file_changes` table, as written by
`MetadataDB::register_file_change`. -/
structure FileChange where
  file_id : Int
  file_version : Int
  kind : Int
  file_hash : Str
  deriving DecidableEq, Repr

/-- The metadata database state. `nextEntryId` models SQLite's
auto-increment rowid for `directory_entry`. -/
structure MetadataState where
  files : List FileRow
  entries : List DirectoryEntry
  changes : List FileChange
  nextEntryId : Int
  deriving DecidableEq, Repr

/-- Embeds `MetadataDB::get_file` (`SELECT * FROM files WHERE id = :id`, first row). -/
def getFile (db : MetadataState) (id : Int) : Option FileRow :=
  db.files.find? (fun r => r.id == id)

/-- Embeds `MetadataDB::update_file` (`metadata_db.rs:198-215`):
`UPDATE files SET version = version + 1, kind = :kind, ... WHERE id = :id`.
Every column except `id` is overwritten from the argument; `version` is the
row's own version plus one (the argument's `version` field is not bound). -/
def updateFile (db : MetadataState) (file : FileRow) : MetadataState :=
  { db with files := db.files.map (fun r =>
      if r.id == file.id then { file with id := r.id, version := r.version + 1 } else r) }

/-- Embeds `MetadataDB::find_directory_entry` (first row matching directory and name). -/
def findDirectoryEntry (db : MetadataState) (directory_file_id : Int) (name : Str) :
    Option DirectoryEntry :=
  db.entries.find? (fun e => e.directory_file_id == directory_file_id && e.name == name)

/-- Embeds `MetadataDB::find_parent_directory` (`metadata_db.rs:263-270`):
`SELECT directory_file_id FROM directory_entry WHERE entry_file_id = :file_id
and name <> '.' and name <> '..'`, first row. -/
def findParentDirectory (db : MetadataState) (file_id : Int) : Option Int :=
  (db.entries.find? (fun e =>
      e.entry_file_id == file_id && e.name != (['.'] : Str) &&
      e.name != (['.', '.'] : Str))).map (·.directory_file_id)

/-- Embeds `MetadataDB::add_directory_entry` (`metadata_db.rs:348-365`): insert the
entry (with the auto-increment id), then
`UPDATE files SET version = version + 1 WHERE id = :directory_file_id`.
Returns the new entry's id. -/
def addDirectoryEntry (db : MetadataState) (entry : DirectoryEntry) : Int × MetadataState :=
  let newId := db.nextEntryId
  (newId,
   { db with
      entries := db.entries ++ [{ entry with id := newId }]
      files := db.files.map (fun r =>
        if r.id == entry.directory_file_id then { r with version := r.version + 1 } else r)
      nextEntryId := newId + 1 })

/-- Embeds `MetadataDB::remove_directory_entry` (`metadata_db.rs:243-246`):
`DELETE FROM directory_entry WHERE id = :id` — nothing else. -/
def removeDirectoryEntry (db : MetadataState) (entry_id : Int) : MetadataState :=
  { db with entries := db.entries.filter (fun e => !(e.id == entry_id)) }

/-- Embeds `MetadataDB::remove_file` (`metadata_db.rs:237-241`): delete the file row
and every directory entry mentioning it as parent or child. -/
def dbRemoveFile (db : MetadataState) (id : Int) : MetadataState :=
  { db with
      files := db.files.filter (fun r => !(r.id == id))
      entries := db.entries.filter (fun e =>
        !(e.entry_file_id == id || e.directory_file_id == id)) }

/-- Embeds `MetadataDB::get_file_version` (`metadata_db.rs:217-221`). -/
def getFileVersion (db : MetadataState) (id : Int) : Option Int :=
  (getFile db id).map (·.version)

/-- Embeds `MetadataDB::register_file_change` (`metadata_db.rs:223-235`). The row
digest `FileRow::hash()` comes from the external `hmac_sha512` crate and is a
parameter (`rowHash`); the code stores its first 16 characters. -/
def registerFileChange (rowHash : FileRow → Str) (db : MetadataState)
    (file : FileRow) (kind : Int) : MetadataState :=
  let version := (getFileVersion db file.id).getD 1
  { db with changes := db.changes ++
      [{ file_id := file.id, file_version := version, kind := kind,
         file_hash := (rowHash file).take 16 }] }

/-- The loop of `MetadataDB::get_file_path` (`metadata_db.rs:276-295`),
with explicit fuel; `none` models a non-terminating walk. Accumulates the
component names in push order (deepest first). -/
def getFilePathLoop (db : MetadataState) :
    Nat → Int → List Str → Option (Except String (List Str))
  | 0, _, _ => none
  | fuel + 1, current, comps =>
    match getFile db current with
    | none => some (.error "Unable to get file path")
    | some file =>
      if file.name == (['/'] : Str) then some (.ok comps)
      else
        let comps := comps ++ [file.name]
        match findParentDirectory db current with
        | none => some (.ok comps)
        | some parent =>
          if parent == current then some (.ok comps)
          else getFilePathLoop db fuel parent comps

/-- Embeds `MetadataDB::get_file_path` (`metadata_db.rs:272-304`): walk the parent
links collecting names, then emit `'/' ++ name` for each component from the
outermost inwards. -/
def getFilePath (db : MetadataState) (fuel : Nat) (file_id : Int) :
    Option (Except String Str) :=
  (getFilePathLoop db fuel file_id []).map (fun r =>
    r.map (fun comps => comps.reverse.flatMap (fun p => '/' :: p)))

/-! ## Storage-key derivation (`config.rs::StorageConfig::path_of`) -/

/-- The single field of `StorageConfig` that `path_of` consults. -/
structure StorageConfig where
  use_hash_as_filename : Bool
  deriving DecidableEq, Repr

/-- Embeds `StorageConfig::path_of` (`config.rs:394-402`). The Rust slice
`&info.sha512[..32]` panics when a non-empty `sha512` is shorter than 32
characters; that panic is modelled as `none`. -/
def pathOf (config : StorageConfig) (info : ObjInfo) : Option Str :=
  if config.use_hash_as_filename then
    if info.sha512.isEmpty then some ("null".toList)
    else if info.sha512.length < 32 then none
    else some (info.sha512.take 32 ++ ".dat".toList)
  else
    some (info.full_path.dropWhile (fun c => c == '/'))

/-! ## FileKey (`obj_storage/encrypted_object_storage.rs:38-72`) -/

def SALT_LEN : Nat := 32
def NONCE_LEN : Nat := 12
def AEAD_LEN : Nat := 10

/-- Embeds `encrypted_object_storage.rs::FileKey`. -/
structure FileKey where
  salt : Bytes
  nonce : Bytes
  aead : Str
  deriving DecidableEq, Repr

/-- Lowercase hex digit of a value below 16 (`hex::encode` alphabet). -/
def hexDigit (n : Nat) : Char :=
  if n < 10 then Char.ofNat (48 + n) else Char.ofNat (87 + n)

/-- Embeds `hex::encode`: two lowercase hex digits per byte. -/
def hexEncode (bs : Bytes) : Str :=
  bs.flatMap (fun b => [hexDigit (b / 16), hexDigit (b % 16)])

/-- Embeds `hex::decode` digit: accepts `0-9`, `a-f`, `A-F`. -/
def hexDecodeDigit (c : Char) : Option Nat :=
  if '0' ≤ c && c ≤ '9' then some (c.toNat - 48)
  else if 'a' ≤ c && c ≤ 'f' then some (c.toNat - 87)
  else if 'A' ≤ c && c ≤ 'F' then some (c.toNat - 55)
  else none

/-- Embeds `hex::decode`: pairs of digits; fails on a stray digit or a non-hex
character. -/
def hexDecode : Str → Option Bytes
  | [] => some []
  | [_] => none
  | c1 :: c2 :: rest =>
    match hexDecodeDigit c1, hexDecodeDigit c2, hexDecode rest with
    | some h, some l, some bs => some ((h * 16 + l) :: bs)
    | _, _, _ => none

/-- Rust `str::split(':')`: splits at every colon, keeping empty parts. -/
def splitColon : Str → List Str
  | [] => [[]]
  | c :: rest =>
    if c == ':' then [] :: splitColon rest
    else
      match splitColon rest with
      | [] => [[c]]
      | part :: parts => (c :: part) :: parts

/-- Embeds `FileKey::serialize`: `format!("{}:{}:{}", hex(salt), hex(nonce), aead)`. -/
def FileKey.serialize (k : FileKey) : Str :=
  hexEncode k.salt ++ [':'] ++ hexEncode k.nonce ++ [':'] ++ k.aead

/-- Embeds `FileKey::deserialize` (`encrypted_object_storage.rs:43-72`). -/
def FileKey.deserialize (s : Str) : Except String FileKey :=
  if s.length ≠ 100 then .error "Invalid file key: incorrect length"
  else
    let parts := splitColon s
    if parts.length ≠ 3 then .error "Invalid file key"
    else
      match hexDecode (parts.getD 0 []) with
      | none => .error "hex decode error"
      | some salt =>
        if salt.length ≠ SALT_LEN then .error "Invalid file key: incorrect salt length"
        else
          match hexDecode (parts.getD 1 []) with
          | none => .error "hex decode error"
          | some nonce =>
            if nonce.length ≠ NONCE_LEN then .error "Invalid file key: incorrect nonce length"
            else
              let aead := parts.getD 2 []
              if aead.length ≠ AEAD_LEN then .error "Invalid file key: incorrect AEAD length"
              else .ok { salt := salt, nonce := nonce, aead := aead }

/-- A well-formed `FileKey` as produced by `EncryptedObjectStorage::encrypt`:
a 32-byte salt, a 12-byte nonce, and a 10-character AEAD tag that is a prefix
of the lowercase-hex SHA-512 of the content. -/
def FileKey.valid (k : FileKey) : Prop :=
  k.salt.length = SALT_LEN ∧ (∀ b ∈ k.salt, b < 256) ∧
  k.nonce.length = NONCE_LEN ∧ (∀ b ∈ k.nonce, b < 256) ∧
  k.aead.length = AEAD_LEN ∧
  (∀ c ∈ k.aead, ('0' ≤ c ∧ c ≤ '9') ∨ ('a' ≤ c ∧ c ≤ 'f'))

/-! ## Filesystem service (`sql_fs.rs`) -/

def ENOENT : Int := 2
def EIO : Int := 5
def EISDIR : Int := 21
def EINVAL : Int := 22

/-- The two configuration switches `SqlFileSystem` consults. -/
structure FSConfig where
  update_access_time : Bool
  store_file_change_history : Bool
  deriving DecidableEq, Repr

/-- The combined state of `SqlFileSystem`: the metadata index plus the
session cache. -/
structure FSState where
  db : MetadataState
  si : SIState
  deriving DecidableEq, Repr

/-- Embeds `sql_fs.rs::SqlFileSystem::is_validate_file_name`. -/
def isValidFileName (name : Str) : Bool :=
  name.length > 0 && name.length ≤ 255 && !name.contains '/' &&
  name != (['.'] : Str) && name != (['.', '.'] : Str)

/-- Embeds `SqlFileSystem::cleanup` (`sql_fs.rs:613-627`): forwards to
`StorageInterface::cleanup`; an object-storage error surfaces as `EIO`. -/
def fsCleanup (env : SIEnv) (st : FSState) : Except Int Unit × FSState :=
  match siCleanup env st.si with
  | (.ok _, si) => (.ok (), { st with si := si })
  | (.error _, si) => (.error EIO, { st with si := si })

/-- Embeds `SqlFileSystem::unlink` (`sql_fs.rs:441-465`). Note the body is NOT
wrapped in `SqlFileSystem::transaction`: each step mutates the state
directly. `rowHash` abstracts `FileRow::hash()` (external `hmac_sha512`),
`fuel` bounds the `get_file_path` walk (`none` models a diverging walk). -/
def unlink (env : SIEnv) (cfg : FSConfig) (rowHash : FileRow → Str) (fuel : Nat)
    (st : FSState) (parent : Int) (name : Str) :
    Option (Except Int Unit × FSState) :=
  if !isValidFileName name then some (.error EINVAL, st)
  else
    match findDirectoryEntry st.db parent name with
    | none => some (.error ENOENT, st)
    | some dir_entry =>
      match getFile st.db dir_entry.entry_file_id with
      | none => some (.error ENOENT, st)
      | some file =>
        if file.kind == FILE_KIND_DIRECTORY then some (.error EISDIR, st)
        else
          match getFile st.db parent with
          | none => some (.error ENOENT, st)
          | some parent_directory =>
            match getFilePath st.db fuel file.id with
            | none => none
            | some (.error _) => some (.error EIO, st)
            | some (.ok full_path) =>
              match siRemove st.si file full_path with
              | (.error _, si) => some (.error EIO, { st with si := si })
              | (.ok _, si) =>
                let st := { st with si := si }
                let st := { st with db := dbRemoveFile st.db dir_entry.entry_file_id }
                let st :=
                  if cfg.store_file_change_history then
                    let db := registerFileChange rowHash st.db file 3
                    let db := registerFileChange rowHash db parent_directory 2
                    { st with db := db }
                  else st
                match fsCleanup env st with
                | (.ok _, st) => some (.ok (), st)
                | (.error e, st) => some (.error e, st)

/-! ## Decidable equality for `Except` results -/

deriving instance DecidableEq for Except

/-! ## Concrete fixtures used in the evaluations below -/

/-- A file row with every field at its blank value, used as a base for the
concrete states below. -/
def blankFile : FileRow :=
  { id := 0, version := 1, kind := 0, name := [], uid := 0, gid := 0, perms := 0,
    size := 0, sha512 := [], encryption_key := [], compression := [],
    accessed_at := 0, created_at := 0, updated_at := 0 }

/-- An environment whose object storage always succeeds and changes nothing. -/
def quietEnv : SIEnv :=
  { hexSha512 := fun _ => [], objGet := fun _ => .ok [], objPut := fun i _ => .ok i,
    objRemoveOk := fun _ => true, now := 0 }

/-! ## C2 — the write splice claim

The spec says a write splices `buff` into the buffer at `offset` after
zero-filling up to `offset + len`; `specSplice` is that stated behaviour. -/

/-- Modelled from the spec (claim C2): grow the buffer with zero fill when
`offset + len` exceeds its length, then overwrite bytes
`[offset, offset+len)` with the written bytes, keeping all others. -/
def specSplice (old : Bytes) (offset : Nat) (buff : Bytes) : Bytes :=
  let grown :=
    if offset + buff.length > old.length then
      old ++ List.replicate (offset + buff.length - old.length) 0
    else old
  grown.take offset ++ buff ++ grown.drop (offset + buff.length)

def exC2Session : StorageInterfaceCache :=
  { full_path := [], mode := O_WRONLY, content := [1, 2, 3],
    retrieved := false, modified := false, count := 1 }

def exC2St : SIState := { cache := [(7, exC2Session)], pending_remove := [] }

def exC2File : FileRow := { blankFile with id := 7, size := 3 }

/-- C2: the claim says a write of `[9]` at offset 1 into the buffer
`[1,2,3]` splices, yielding `[1,9,3]` of length `max 3 (1+1) = 3`. The code
(`storage_interface.rs:123-125`) instead hits the `offset == buff.len()`
"append to the end" branch — the offset is compared against the length of
the *incoming* slice, not the buffer — and produces `[1,2,3,9]`: the byte at
index 1 keeps its old value and the length is neither `old_len` nor
`offset + len`. -/
theorem C2_write_append_branch_diverges :
    (siWrite exC2St exC2File 1 [9]).1 = .ok 1 ∧
    ((siWrite exC2St exC2File 1 [9]).2.cache.map (fun p => (p.1, p.2.content))) = [(7, [1, 2, 3, 9])] ∧
    specSplice [1, 2, 3] 1 [9] = [1, 9, 3] ∧
    ([1, 2, 3, 9] : Bytes) ≠ specSplice [1, 2, 3] 1 [9] ∧
    ([1, 2, 3, 9] : Bytes).length ≠ max ([1, 2, 3] : Bytes).length (1 + ([9] : Bytes).length) := by
  decide

/-! ## C4 — release/refcount semantics -/

def exC4File : FileRow := { blankFile with id := 7 }

/-- C4: the claim says that after two permitted read-only opens of the same
file one close leaves the session present (refcount 2 → 1). In the code,
the second `open` bumps `count` but then unconditionally re-inserts a fresh
session with `count = 1` (`storage_interface.rs:64-71`), so the very first
close drops the count to 0 and removes the session. -/
theorem C4_second_open_discards_refcount :
    (siOpen { cache := [], pending_remove := [] } 7 [] O_RDONLY).1 = .ok false ∧
    (siOpen (siOpen { cache := [], pending_remove := [] } 7 [] O_RDONLY).2 7 [] O_RDONLY).1 = .ok false ∧
    (mapLookup (siOpen (siOpen { cache := [], pending_remove := [] } 7 [] O_RDONLY).2 7 [] O_RDONLY).2.cache 7).map
      (fun c => c.count) = some 1 ∧
    (siClose quietEnv (siOpen (siOpen { cache := [], pending_remove := [] } 7 [] O_RDONLY).2 7 [] O_RDONLY).2 exC4File).map
      (fun p => (p.1, mapLookup p.2.2.cache 7)) = some (.ok false, none) := by
  decide

/-! ## C5 — version counter behaviour -/

def exC5Db : MetadataState :=
  { files := [{ blankFile with id := 1, kind := 1, name := ['/'] }],
    entries := [{ id := 10, directory_file_id := 1, entry_file_id := 2, name := ['a'], kind := 0 }],
    changes := [], nextEntryId := 11 }

/-- C5 counterexample: removing directory entry 10 — an entry of the
directory File 1 — via `remove_directory_entry` leaves File 1's version at
1; the claim required it to strictly increase. -/
theorem C5_remove_entry_keeps_version :
    exC5Db.entries.map (fun e => e.directory_file_id) = [1] ∧
    (removeDirectoryEntry exC5Db 10).entries = [] ∧
    (getFile exC5Db 1).map (fun r => r.version) = some 1 ∧
    (getFile (removeDirectoryEntry exC5Db 10) 1).map (fun r => r.version) = some 1 := by
  decide

/-- Searching for a key after updating exactly the rows that carry that key
(the update preserves ids) finds the updated row. -/
theorem find?_map_upd (l : List FileRow) (key : Int) (u : FileRow → FileRow)
    (hu : ∀ r, (u r).id = r.id) :
    (l.map (fun r => if r.id == key then u r else r)).find? (fun r => r.id == key)
      = (l.find? (fun r => r.id == key)).map u := by
  rw [List.find?_map]
  have hp : ((fun r : FileRow => r.id == key) ∘ (fun r => if r.id == key then u r else r))
      = (fun r : FileRow => r.id == key) := by
    funext r
    by_cases h : r.id = key <;> simp [Function.comp, h, hu]
  rw [hp]
  cases hf : l.find? (fun r => r.id == key) with
  | none => rfl
  | some r =>
    have hr : r.id = key := by simpa using List.find?_some hf
    simp only [Option.map_some']
    simp [hr]

/-- Searching for a different key is unaffected by an id-preserving update
of the rows carrying `key`. -/
theorem find?_map_upd_ne (l : List FileRow) (key id : Int) (u : FileRow → FileRow)
    (hu : ∀ r, (u r).id = r.id) (hne : id ≠ key) :
    (l.map (fun r => if r.id == key then u r else r)).find? (fun r => r.id == id)
      = l.find? (fun r => r.id == id) := by
  rw [List.find?_map]
  have hp : ((fun r : FileRow => r.id == id) ∘ (fun r => if r.id == key then u r else r))
      = (fun r : FileRow => r.id == id) := by
    funext r
    by_cases h : r.id = key <;> simp [Function.comp, h, hu]
  rw [hp]
  cases hf : l.find? (fun r => r.id == id) with
  | none => rfl
  | some r =>
    have hr : r.id = id := by simpa using List.find?_some hf
    have hrk : ¬ r.id = key := by
      intro hc
      exact hne (by rw [← hr, hc])
    simp only [Option.map_some']
    simp [hrk]

/-- C5, amended: `update_file` strictly increments the version of the row it
replaces and `add_directory_entry` strictly increments the parent directory's
version, while `remove_directory_entry` leaves every file row — hence every
version — unchanged; rows other than the touched one are never altered, so
no operation decreases a version. -/
theorem C5_version_monotonic_amended :
    (∀ (db : MetadataState) (f r : FileRow), getFile db f.id = some r →
        getFile (updateFile db f) f.id = some ({ f with id := r.id, version := r.version + 1 })) ∧
    (∀ (db : MetadataState) (e : DirectoryEntry) (r : FileRow),
        getFile db e.directory_file_id = some r →
        getFile (addDirectoryEntry db e).2 e.directory_file_id = some ({ r with version := r.version + 1 })) ∧
    (∀ (db : MetadataState) (entry_id : Int), (removeDirectoryEntry db entry_id).files = db.files) ∧
    (∀ (db : MetadataState) (f : FileRow) (id : Int), ¬ id = f.id →
        getFile (updateFile db f) id = getFile db id) ∧
    (∀ (db : MetadataState) (e : DirectoryEntry) (id : Int), ¬ id = e.directory_file_id →
        getFile (addDirectoryEntry db e).2 id = getFile db id) := by
  refine ⟨?_, ?_, ?_, ?_, ?_⟩
  · intro db f r h
    have := find?_map_upd db.files f.id
      (fun r => { f with id := r.id, version := r.version + 1 }) (fun _ => rfl)
    simp only [getFile, updateFile] at *
    rw [this, h]
    rfl
  · intro db e r h
    have := find?_map_upd db.files e.directory_file_id
      (fun r => { r with version := r.version + 1 }) (fun _ => rfl)
    simp only [getFile, addDirectoryEntry] at *
    rw [this, h]
    rfl
  · intro db entry_id
    rfl
  · intro db f id hne
    have := find?_map_upd_ne db.files f.id id
      (fun r => { f with id := r.id, version := r.version + 1 }) (fun _ => rfl) hne
    simp only [getFile, updateFile] at *
    rw [this]
  · intro db e id hne
    have := find?_map_upd_ne db.files e.directory_file_id id
      (fun r => { r with version := r.version + 1 }) (fun _ => rfl) hne
    simp only [getFile, addDirectoryEntry] at *
    rw [this]

/-- Closed instance of `C5_version_monotonic_amended` at concrete inputs:
updating File 1 bumps its version to 2, adding an entry of directory 1 bumps
it to 2, removing an entry leaves the file table unchanged. -/
theorem C5_version_monotonic_amended_witness :
    getFile (updateFile exC5Db ({ blankFile with id := 1, kind := 1, name := ['/'] })) 1 =
      some ({ blankFile with id := 1, kind := 1, name := ['/'], version := 2 }) ∧
    getFile (addDirectoryEntry exC5Db
        ({ id := 0, directory_file_id := 1, entry_file_id := 2, name := ['b'], kind := 0 })).2 1 =
      some ({ blankFile with id := 1, kind := 1, name := ['/'], version := 2 }) ∧
    (removeDirectoryEntry exC5Db 10).files = exC5Db.files := by
  refine ⟨?_, ?_, C5_version_monotonic_amended.2.2.1 exC5Db 10⟩
  · have h := C5_version_monotonic_amended.1 exC5Db
      ({ blankFile with id := 1, kind := 1, name := ['/'] })
      ({ blankFile with id := 1, kind := 1, name := ['/'] }) (by decide)
    exact h.trans (by decide)
  · have h := C5_version_monotonic_amended.2.1 exC5Db
      ({ id := 0, directory_file_id := 1, entry_file_id := 2, name := ['b'], kind := 0 })
      ({ blankFile with id := 1, kind := 1, name := ['/'] }) (by decide)
    exact h.trans (by decide)

/-! ## C6 — `get_file_path` and missing parent links -/

def exC6Db : MetadataState :=
  { files := [{ blankFile with id := 1, kind := 1, name := ['/'] },
              { blankFile with id := 5, name := ['a'] }],
    entries := [], changes := [], nextEntryId := 1 }

/-- C6 counterexample: file 5 is a non-root file whose parent link is
missing, yet `get_file_path` returns `Ok "/a"` — the path accumulated before
the broken link — instead of an error (the loop `break`s when
`find_parent_directory` yields nothing, `metadata_db.rs:290-292`). -/
theorem C6_missing_link_gives_path_not_error :
    findParentDirectory exC6Db 5 = none ∧
    (getFile exC6Db 5).isSome = true ∧
    getFilePath exC6Db 10 5 = some (.ok ['/', 'a']) := by
  decide

/-- Running the `get_file_path` loop with accumulator `acc` equals running
it with an empty accumulator and prefixing `acc` to a successful result:
the loop only ever appends component names. -/
theorem getFilePathLoop_acc (db : MetadataState) :
    ∀ (fuel : Nat) (cur : Int) (acc : List Str),
      getFilePathLoop db fuel cur acc
        = (getFilePathLoop db fuel cur []).map (Except.map (fun comps => acc ++ comps)) := by
  intro fuel
  induction fuel with
  | zero => intro cur acc; rfl
  | succ fuel ih =>
    intro cur acc
    simp only [getFilePathLoop]
    cases hf : getFile db cur with
    | none => simp [Except.map]
    | some file =>
      by_cases hname : file.name = ['/']
      · simp [hname, Except.map]
      · cases hpar : findParentDirectory db cur with
        | none => simp [hname, Except.map]
        | some parent =>
          by_cases hp : parent = cur
          · simp [hname, hp, Except.map]
          · simp only [hname, hp, beq_iff_eq, if_false, List.nil_append,
                       Bool.false_eq_true, ite_false]
            rw [ih parent (acc ++ [file.name]), ih parent [file.name]]
            cases getFilePathLoop db fuel parent [] with
            | none => rfl
            | some r =>
              cases r with
              | error e => rfl
              | ok comps => simp [Except.map, List.append_assoc]

/-- C6, amended: `get_file_path` returns an error exactly when a file row on
the walk is missing; a missing or self-referential parent link does not
error but stops the walk, returning the accumulated (possibly truncated)
path. The five conjuncts are the recursion equations of the walk, fully
characterising it: a missing row (anywhere on the walk, by composition with
the step equation) gives the error; the root gives the empty path; a
missing link or a self-link after one step gives `"/" ++ name`; and a
genuine parent link prefixes the parent's path to `"/" ++ name`, which
yields the `'/'`-joined absolute path in root-to-leaf order. -/
theorem C6_get_file_path_amended :
    (∀ (db : MetadataState) (fuel : Nat) (id : Int), getFile db id = none →
        getFilePath db (fuel + 1) id = some (.error "Unable to get file path")) ∧
    (∀ (db : MetadataState) (fuel : Nat) (id : Int) (file : FileRow),
        getFile db id = some file → file.name = ['/'] →
        getFilePath db (fuel + 1) id = some (.ok [])) ∧
    (∀ (db : MetadataState) (fuel : Nat) (id : Int) (file : FileRow),
        getFile db id = some file → ¬ file.name = ['/'] → findParentDirectory db id = none →
        getFilePath db (fuel + 1) id = some (.ok ('/' :: file.name))) ∧
    (∀ (db : MetadataState) (fuel : Nat) (id : Int) (file : FileRow),
        getFile db id = some file → ¬ file.name = ['/'] →
        findParentDirectory db id = some id →
        getFilePath db (fuel + 1) id = some (.ok ('/' :: file.name))) ∧
    (∀ (db : MetadataState) (fuel : Nat) (id pid : Int) (file : FileRow),
        getFile db id = some file → ¬ file.name = ['/'] →
        findParentDirectory db id = some pid → ¬ pid = id →
        getFilePath db (fuel + 1) id =
          (getFilePath db fuel pid).map
            (Except.map (fun p => p ++ '/' :: file.name))) := by
  refine ⟨?_, ?_, ?_, ?_, ?_⟩
  · intro db fuel id h
    simp [getFilePath, getFilePathLoop, h, Except.map]
  · intro db fuel id file hf hname
    simp [getFilePath, getFilePathLoop, hf, hname, Except.map]
  · intro db fuel id file hf hname hpar
    simp [getFilePath, getFilePathLoop, hf, hname, hpar, Except.map]
  · intro db fuel id file hf hname hpar
    simp [getFilePath, getFilePathLoop, hf, hname, hpar, Except.map]
  · intro db fuel id pid file hf hname hpar hpid
    simp only [getFilePath, getFilePathLoop, hf, hname, hpar, hpid, beq_iff_eq,
               if_false, List.nil_append, Bool.false_eq_true, ite_false]
    rw [getFilePathLoop_acc db fuel pid [file.name]]
    cases getFilePathLoop db fuel pid [] with
    | none => rfl
    | some r =>
      cases r with
      | error e => rfl
      | ok comps => simp [Except.map]

/-- A two-level directory tree with a dangling file (99 has no row) and a
self-linked file (4 is its own parent): `/dir/a` lives under `/dir`. -/
def exC6Db2 : MetadataState :=
  { files := [{ blankFile with id := 1, kind := 1, name := ['/'] },
              { blankFile with id := 3, kind := 1, name := ['d', 'i', 'r'] },
              { blankFile with id := 2, name := ['a'] },
              { blankFile with id := 4, name := ['s'] }],
    entries := [{ id := 20, directory_file_id := 1, entry_file_id := 3, name := ['d', 'i', 'r'], kind := 1 },
                { id := 21, directory_file_id := 3, entry_file_id := 2, name := ['a'], kind := 0 },
                { id := 22, directory_file_id := 4, entry_file_id := 4, name := ['s'], kind := 0 }],
    changes := [], nextEntryId := 23 }

/-- Closed instance of `C6_get_file_path_amended`: a missing row errors, the
root resolves to the empty path, a broken link truncates to `"/a"`, a
self-link truncates to `"/s"`, and the step equation assembles the
two-component absolute path `"/dir/a"`. -/
theorem C6_get_file_path_amended_witness :
    getFilePath exC6Db2 8 99 = some (.error "Unable to get file path") ∧
    getFilePath exC6Db2 8 1 = some (.ok []) ∧
    getFilePath exC6Db 8 5 = some (.ok ['/', 'a']) ∧
    getFilePath exC6Db2 8 4 = some (.ok ['/', 's']) ∧
    getFilePath exC6Db2 8 2 = some (.ok "/dir/a".toList) := by
  refine ⟨C6_get_file_path_amended.1 exC6Db2 7 99 (by decide), ?_, ?_, ?_, ?_⟩
  · exact C6_get_file_path_amended.2.1 exC6Db2 7 1
      ({ blankFile with id := 1, kind := 1, name := ['/'] }) (by decide) (by decide)
  · have h := C6_get_file_path_amended.2.2.1 exC6Db 7 5
      ({ blankFile with id := 5, name := ['a'] }) (by decide) (by decide) (by decide)
    exact h.trans (by decide)
  · have h := C6_get_file_path_amended.2.2.2.1 exC6Db2 7 4
      ({ blankFile with id := 4, name := ['s'] }) (by decide) (by decide) (by decide)
    exact h.trans (by decide)
  · have h := C6_get_file_path_amended.2.2.2.2 exC6Db2 7 2 3
      ({ blankFile with id := 2, name := ['a'] }) (by decide) (by decide) (by decide) (by decide)
    exact h.trans (by decide)

/-! ## C8 — storage-key derivation -/

def exC8Info : ObjInfo := ObjInfo.new blankFile ['p']

/-- C8 counterexample: with `use_hash_as_filename = true` and an empty
`sha512`, `path_of` yields the literal `"null"` (`config.rs:396`), not the
claimed `first-32-hex + ".dat"` form (which would be `".dat"` here). -/
theorem C8_empty_sha_gives_null :
    exC8Info.sha512 = [] ∧
    pathOf { use_hash_as_filename := true } exC8Info = some ("null".toList) ∧
    pathOf { use_hash_as_filename := true } exC8Info ≠
      some (exC8Info.sha512.take 32 ++ ".dat".toList) := by
  decide

/-- In a list produced by `dropWhile p`, the head does not satisfy `p`. -/
theorem dropWhile_head_not (p : Char → Bool) :
    ∀ (l : List Char) (c : Char) (rest : List Char), l.dropWhile p = c :: rest → p c = false := by
  intro l
  induction l with
  | nil => intro c rest h; cases h
  | cons a l ih =>
    intro c rest h
    by_cases hpa : p a = true
    · rw [List.dropWhile_cons_of_pos hpa] at h
      exact ih c rest h
    · rw [List.dropWhile_cons_of_neg hpa] at h
      cases h
      exact Bool.not_eq_true _ |>.mp hpa

/-- C8, amended: under hash addressing the key is `"null"` when `sha512` is
empty; a non-empty `sha512` shorter than 32 characters makes the slice
`&sha512[..32]` panic (modelled as `none`); when `sha512` has at least 32
characters the key is its first 32 characters followed by `".dat"`
(36 characters in all for a 128-hex digest). Without hash addressing the
key is the logical path with leading slashes trimmed, so it never starts
with `'/'`. -/
theorem C8_path_of_amended :
    (∀ info : ObjInfo, info.sha512 = [] →
        pathOf { use_hash_as_filename := true } info = some ("null".toList)) ∧
    (∀ info : ObjInfo, ¬ info.sha512 = [] → info.sha512.length < 32 →
        pathOf { use_hash_as_filename := true } info = none) ∧
    (∀ info : ObjInfo, 32 ≤ info.sha512.length →
        pathOf { use_hash_as_filename := true } info =
          some (info.sha512.take 32 ++ ".dat".toList)) ∧
    (∀ info : ObjInfo, info.sha512.length = 128 →
        (pathOf { use_hash_as_filename := true } info).map List.length = some 36) ∧
    (∀ info : ObjInfo,
        pathOf { use_hash_as_filename := false } info =
          some (info.full_path.dropWhile (fun c => c == '/'))) ∧
    (∀ (info : ObjInfo) (c : Char) (rest : Str),
        pathOf { use_hash_as_filename := false } info = some (c :: rest) → ¬ c = '/') := by
  refine ⟨?_, ?_, ?_, ?_, ?_, ?_⟩
  · intro info h
    simp [pathOf, h]
  · intro info h hlt
    simp [pathOf, List.isEmpty_iff, h, hlt]
  · intro info h
    have hne : ¬ info.sha512 = [] := by
      intro hc
      rw [hc] at h
      simp at h
    simp [pathOf, List.isEmpty_iff, hne, Nat.not_lt.mpr h]
  · intro info h
    have hne : ¬ info.sha512 = [] := by
      intro hc
      rw [hc] at h
      cases h
    have hge : ¬ info.sha512.length < 32 := by omega
    simp [pathOf, List.isEmpty_iff, hne, hge, h]
  · intro info
    rfl
  · intro info c rest h
    simp [pathOf] at h
    have := dropWhile_head_not (fun c => c == '/') info.full_path c rest h
    simpa using this

/-- Closed instance of `C8_path_of_amended` at concrete inputs: empty digest
gives `"null"`, a two-character digest hits the panicking slice, a 32-hex
digest gives its 32 characters plus `".dat"`, and path addressing trims the
leading slashes. -/
theorem C8_path_of_amended_witness :
    pathOf { use_hash_as_filename := true } exC8Info = some ("null".toList) ∧
    pathOf { use_hash_as_filename := true }
      (ObjInfo.new ({ blankFile with sha512 := ['a', 'b'] }) []) = none ∧
    pathOf { use_hash_as_filename := true }
      (ObjInfo.new ({ blankFile with sha512 := List.replicate 32 'a' }) []) =
      some (List.replicate 32 'a' ++ ".dat".toList) ∧
    pathOf { use_hash_as_filename := false } (ObjInfo.new blankFile "//x/y".toList) =
      some ("//x/y".toList.dropWhile (fun c => c == '/')) := by
  refine ⟨C8_path_of_amended.1 exC8Info (by decide), ?_, ?_, C8_path_of_amended.2.2.2.2.1 _⟩
  · exact C8_path_of_amended.2.1 (ObjInfo.new ({ blankFile with sha512 := ['a', 'b'] }) [])
      (by decide) (by decide)
  · have h := C8_path_of_amended.2.2.1
      (ObjInfo.new ({ blankFile with sha512 := List.replicate 32 'a' }) []) (by decide)
    exact h.trans (by decide)

/-! ## C10 — the unreachable read-only check in `write` -/

/-- C10: since `O_RDONLY = 0`, the guard `mode & O_RDONLY != 0` in
`StorageInterface::write` (`storage_interface.rs:111`) is false for every
mode, so a write on any open session — including one opened `O_RDONLY` —
is never refused and returns `Ok(buff.len())`; by contrast `read` on a
session whose mode has the `O_WRONLY` bit is refused. -/
theorem C10_write_readonly_check_unreachable (st : SIState) (file : FileRow)
    (row : StorageInterfaceCache) (hrow : mapLookup st.cache file.id = some row) :
    (∀ (offset : Nat) (buff : Bytes), (siWrite st file offset buff).1 = .ok buff.length) ∧
    (∀ (env : SIEnv) (offset buffLen : Nat), row.mode &&& O_WRONLY ≠ 0 →
        (siRead env st file offset buffLen).1 = .error "File is write-only") := by
  constructor
  · intro offset buff
    simp [siWrite, hrow, O_RDONLY]
  · intro env offset buffLen h
    simp [siRead, hrow, h]

def exRORow : StorageInterfaceCache :=
  { full_path := [], mode := O_RDONLY, content := [1],
    retrieved := false, modified := false, count := 1 }

def exWORow : StorageInterfaceCache :=
  { full_path := [], mode := O_WRONLY, content := [1],
    retrieved := false, modified := false, count := 1 }

def exC10WriteSt : SIState := { cache := [(9, exRORow)], pending_remove := [] }

def exC10ReadSt : SIState := { cache := [(9, exWORow)], pending_remove := [] }

def exC10File : FileRow := { blankFile with id := 9 }

/-- Closed instance of `C10_write_readonly_check_unreachable`: a write on an
`O_RDONLY` session succeeds, a read on an `O_WRONLY` session is refused. -/
theorem C10_write_readonly_check_unreachable_witness :
    (siWrite exC10WriteSt exC10File 0 [5]).1 = .ok 1 ∧
    (siRead quietEnv exC10ReadSt exC10File 0 4).1 = .error "File is write-only" := by
  refine ⟨?_, ?_⟩
  · exact (C10_write_readonly_check_unreachable exC10WriteSt exC10File exRORow (by decide)).1 0 [5]
  · exact (C10_write_readonly_check_unreachable exC10ReadSt exC10File exWORow (by decide)).2
      quietEnv 0 4 (by decide)

/-! ## C3 — open-mode compatibility -/

/-- C3: with a session already open for `fileId`, a second `open` succeeds
exactly when the new flags carry no `O_APPEND` bit, both modes are strictly
read-only (`flags & 0b11 = O_RDONLY`) and neither mode has `O_EXCL`; and —
independently of any session — flags with `O_APPEND` are always rejected. -/
theorem C3_open_mode_compatibility (st : SIState) (fileId : Int) (path : Str) (mode : Nat)
    (c : StorageInterfaceCache) (hc : mapLookup st.cache fileId = some c) :
    ((siOpen st fileId path mode).1.isOk = true ↔
      (mode &&& O_APPEND = 0 ∧ c.mode &&& 3 = O_RDONLY ∧ mode &&& 3 = O_RDONLY ∧
       c.mode &&& O_EXCL = 0 ∧ mode &&& O_EXCL = 0)) ∧
    (∀ st2 : SIState, mode &&& O_APPEND ≠ 0 →
        (siOpen st2 fileId path mode).1 = .error "Append mode is not supported") := by
  constructor
  · by_cases happ : mode &&& 1024 = 0
    · simp only [siOpen, hc, OpenFlags.from, O_APPEND, O_RDONLY, O_EXCL]
      by_cases h1 : c.mode &&& 3 = 0 <;>
        by_cases h2 : mode &&& 3 = 0 <;>
          by_cases h3 : c.mode &&& 128 = 0 <;>
            by_cases h4 : mode &&& 128 = 0 <;>
              simp [h1, h2, h3, h4, happ, Except.isOk, Except.toBool]
    · simp [siOpen, O_APPEND, happ, Except.isOk, Except.toBool]
  · intro st2 h
    simp only [O_APPEND] at h
    simp [siOpen, O_APPEND, h]

/-- Closed instance of `C3_open_mode_compatibility`: a second read-only open
on a read-only session is accepted, a write-mode reopen is rejected, and an
`O_APPEND` open is rejected outright. -/
theorem C3_open_mode_compatibility_witness :
    (siOpen exC10ReadSt 9 [] O_RDONLY).1.isOk = false ∧
    (siOpen exC10WriteSt 9 [] O_RDONLY).1.isOk = true ∧
    (siOpen exC10WriteSt 9 [] O_WRONLY).1.isOk = false ∧
    (siOpen exC10WriteSt 9 [] (O_RDONLY ||| O_APPEND)).1 = .error "Append mode is not supported" := by
  refine ⟨?_, ?_, ?_, ?_⟩
  · have h := (C3_open_mode_compatibility exC10ReadSt 9 [] O_RDONLY exWORow (by decide)).1
    cases hb : (siOpen exC10ReadSt 9 [] O_RDONLY).1.isOk
    · rfl
    · exact absurd (h.mp hb) (by decide)
  · exact (C3_open_mode_compatibility exC10WriteSt 9 [] O_RDONLY exRORow (by decide)).1.mpr
      (by decide)
  · have h := (C3_open_mode_compatibility exC10WriteSt 9 [] O_WRONLY exRORow (by decide)).1
    cases hb : (siOpen exC10WriteSt 9 [] O_WRONLY).1.isOk
    · rfl
    · exact absurd (h.mp hb) (by decide)
  · exact (C3_open_mode_compatibility exC10WriteSt 9 [] (O_RDONLY ||| O_APPEND) exRORow
      (by decide)).2 exC10WriteSt (by decide)

/-! ## C1 — flush-on-close dataflow -/

/-- C1: for an open session, `flush` behaves as specified. If the session is
not modified it returns `false` and leaves the file row and the state
untouched. If it is modified, the new digest is the hash of the buffer; when
the file's previous `sha512` was non-empty and different, the `ObjInfo`
built from the *old* row is inserted into `pending_remove`; the file's
`sha512` becomes the new digest, `size` the buffer length,
`encryption_key`/`compression` are copied back from the `ObjInfo` returned
by the wrapper `put`, `updated_at` is set to the current time, and the call
returns `true`. -/
theorem C1_flush_on_close (env : SIEnv) (st : SIState) (file : FileRow)
    (row : StorageInterfaceCache) (hrow : mapLookup st.cache file.id = some row) :
    (row.modified = false → siFlush env st file = some (.ok false, file, st)) ∧
    (row.modified = true →
      ∀ info : ObjInfo,
        env.objPut (flushPutArg ({ file with sha512 := env.hexSha512 row.content })
            row.full_path (row.content.length : Int)) row.content = .ok info →
        siFlush env st file =
          some (.ok true,
            { file with
                sha512 := env.hexSha512 row.content
                encryption_key := info.encryption_key
                compression := info.compression
                size := (row.content.length : Int)
                updated_at := env.now },
            { st with pending_remove :=
                if file.sha512 != ([] : Str) && file.sha512 != env.hexSha512 row.content then
                  setInsert st.pending_remove (ObjInfo.new file row.full_path)
                else st.pending_remove })) := by
  constructor
  · intro hmod
    simp [siFlush, hrow, hmod]
  · intro hmod info hput
    simp only [siFlush, hrow, hmod]
    rw [hput]
    simp
    split <;> rfl

def exC1Row : StorageInterfaceCache :=
  { full_path := ['p'], mode := 1, content := [1, 2],
    retrieved := false, modified := true, count := 1 }

def exC1File : FileRow := { blankFile with id := 7, sha512 := ['x'] }

def exC1St : SIState := { cache := [(7, exC1Row)], pending_remove := [] }

def exC1Env : SIEnv :=
  { hexSha512 := fun _ => ['h'], objGet := fun _ => .ok [],
    objPut := fun i _ => .ok { i with encryption_key := ['k'], compression := ['g'] },
    objRemoveOk := fun _ => true, now := 42 }

def exC1PutInfo : ObjInfo :=
  { flushPutArg ({ exC1File with sha512 := ['h'] }) ['p'] 2 with
      encryption_key := ['k'], compression := ['g'] }

/-- Closed instance of `C1_flush_on_close`: a modified session is flushed —
digest updated, prior object queued for deletion, key/compression copied
back, size and timestamp set, `true` returned — and an unmodified session
returns `false` leaving everything unchanged. -/
theorem C1_flush_on_close_witness :
    siFlush exC1Env exC1St exC1File =
      some (.ok true,
        { exC1File with sha512 := ['h'], encryption_key := ['k'], compression := ['g'],
                        size := 2, updated_at := 42 },
        { exC1St with pending_remove := [ObjInfo.new exC1File ['p']] }) ∧
    siFlush quietEnv exC10WriteSt exC10File = some (.ok false, exC10File, exC10WriteSt) := by
  constructor
  · have h := (C1_flush_on_close exC1Env exC1St exC1File exC1Row (by decide)).2 rfl
      exC1PutInfo (by decide)
    exact h.trans (by decide)
  · exact (C1_flush_on_close quietEnv exC10WriteSt exC10File exRORow (by decide)).1 rfl

/-! ## C9 — the transactional envelope of `unlink`/`rmdir` -/

def exC9Root : FileRow := { blankFile with id := 1, kind := 1, name := ['/'] }

def exC9FileA : FileRow := { blankFile with id := 2, name := ['a'], sha512 := ['a', 'b'] }

def exC9Db : MetadataState :=
  { files := [exC9Root, exC9FileA],
    entries := [{ id := 10, directory_file_id := 1, entry_file_id := 2, name := ['a'], kind := 0 }],
    changes := [], nextEntryId := 11 }

def exC9St : FSState := { db := exC9Db, si := { cache := [], pending_remove := [] } }

def exC9Cfg : FSConfig := { update_access_time := false, store_file_change_history := true }

/-- The `ObjInfo` of file `a` that `unlink` queues for deletion. -/
def exC9Info : ObjInfo := ObjInfo.new exC9FileA ['/', 'a']

/-- The state after `unlink` hits a cleanup error: the file row and its
directory entry are gone, the change-history rows were appended, and the
object is still pending removal — nothing was rolled back. -/
def exC9Post : FSState :=
  { db := { files := [exC9Root], entries := [],
            changes := [{ file_id := 2, file_version := 1, kind := 3, file_hash := [] },
                        { file_id := 1, file_version := 1, kind := 2, file_hash := [] }],
            nextEntryId := 11 },
    si := { cache := [], pending_remove := [exC9Info] } }

def exC9FailEnv : SIEnv := { quietEnv with objRemoveOk := fun _ => false }

/-- C9 counterexample: when the object-storage removal during the cleanup
pass fails, `unlink` returns `EIO` but the metadata index is NOT left
unchanged — the file row and its entries stay deleted and the
change-history rows stay appended, because `sql_fs.rs::unlink` (unlike
`mknod`/`rename`/`move_file`) never enters `SqlFileSystem::transaction`. -/
theorem C9_unlink_error_keeps_deletion :
    unlink exC9FailEnv exC9Cfg (fun _ => []) 10 exC9St 1 ['a'] = some (.error EIO, exC9Post) ∧
    exC9Post.db.files ≠ exC9St.db.files ∧
    exC9Post.db.entries ≠ exC9St.db.entries := by
  decide

/-- C9, amended: operations built on `SqlFileSystem::transaction` (mknod,
rename, move_file) roll back on the first error, but `unlink` (and `rmdir`)
run outside any transaction: whatever object-storage behaviour `env` has,
if removing the queued object fails during the cleanup pass, `unlink`
returns the error while the file row, its directory entries and the appended
change rows remain permanently mutated. -/
theorem C9_unlink_not_transactional (env : SIEnv)
    (h : env.objRemoveOk exC9Info = false) :
    unlink env exC9Cfg (fun _ => []) 10 exC9St 1 ['a'] = some (.error EIO, exC9Post) ∧
    exC9Post.db.files ≠ exC9St.db.files := by
  have hstep : unlink env exC9Cfg (fun _ => []) 10 exC9St 1 ['a'] =
      (match fsCleanup env exC9Post with
       | (.ok _, st) => some (.ok (), st)
       | (.error e, st) => some (.error e, st)) := rfl
  have hclean : fsCleanup env exC9Post = (.error EIO, exC9Post) := by
    simp [fsCleanup, siCleanup, exC9Post, h]
  rw [hstep, hclean]
  exact ⟨rfl, by decide⟩

/-- Closed instance of `C9_unlink_not_transactional` with the
always-failing object storage. -/
theorem C9_unlink_not_transactional_witness :
    unlink exC9FailEnv exC9Cfg (fun _ => []) 10 exC9St 1 ['a'] = some (.error EIO, exC9Post) := by
  exact (C9_unlink_not_transactional exC9FailEnv rfl).1

/-! ## C7 — FileKey round-trip: hex and split lemmas -/

/-- Decoding inverts the lowercase hex digit of any value below 16. -/
theorem hexDecodeDigit_hexDigit (n : Nat) (h : n < 16) :
    hexDecodeDigit (hexDigit n) = some n := by
  interval_cases n <;> decide

/-- A hex digit is never the separator `':'`. -/
theorem hexDigit_ne_colon (n : Nat) (h : n < 16) : ¬ hexDigit n = ':' := by
  interval_cases n <;> decide

/-- Hex encoding yields two characters per byte. -/
theorem hexEncode_length (bs : Bytes) : (hexEncode bs).length = 2 * bs.length := by
  induction bs with
  | nil => rfl
  | cons b bs ih =>
    simp only [hexEncode, List.flatMap_cons] at *
    simp [ih]
    omega

/-- The encoding of a byte sequence contains no `':'`. -/
theorem hexEncode_no_colon (bs : Bytes) (hb : ∀ b ∈ bs, b < 256) : ':' ∉ hexEncode bs := by
  induction bs with
  | nil => simp [hexEncode]
  | cons b bs ih =>
    have hblt : b < 256 := hb b (by simp)
    have h1 : b / 16 < 16 := by omega
    have h2 : b % 16 < 16 := Nat.mod_lt _ (by norm_num)
    simp only [hexEncode, List.flatMap_cons, List.cons_append, List.nil_append, List.mem_cons]
    push_neg
    refine ⟨?_, ?_, ?_⟩
    · exact fun hc => hexDigit_ne_colon _ h1 hc.symm
    · exact fun hc => hexDigit_ne_colon _ h2 hc.symm
    · exact fun hc => ih (fun x hx => hb x (by simp [hx])) hc

/-- Decoding inverts encoding on genuine byte sequences. -/
theorem hexDecode_hexEncode (bs : Bytes) (hb : ∀ b ∈ bs, b < 256) :
    hexDecode (hexEncode bs) = some bs := by
  induction bs with
  | nil => rfl
  | cons b bs ih =>
    have hblt : b < 256 := hb b (by simp)
    have h1 : b / 16 < 16 := by omega
    have h2 : b % 16 < 16 := Nat.mod_lt _ (by norm_num)
    have hdm : b / 16 * 16 + b % 16 = b := by
      have := Nat.div_add_mod b 16
      omega
    have ih2 := ih (fun x hx => hb x (by simp [hx]))
    simp only [hexEncode] at ih2
    simp only [hexEncode, List.flatMap_cons, List.cons_append, List.nil_append]
    simp only [hexDecode, hexDecodeDigit_hexDigit _ h1, hexDecodeDigit_hexDigit _ h2]
    rw [ih2]
    simp [hdm]

/-- Splitting a colon-free string yields the single-part list. -/
theorem splitColon_no_colon (xs : Str) (h : ':' ∉ xs) : splitColon xs = [xs] := by
  induction xs with
  | nil => rfl
  | cons c xs ih =>
    have hc : ¬ c = ':' := fun hh => h (by simp [hh])
    simp only [splitColon, hc]
    rw [ih (fun hh => h (by simp [hh]))]
    simp [hc]

/-- Splitting distributes over the first colon after a colon-free prefix. -/
theorem splitColon_append (xs ys : Str) (h : ':' ∉ xs) :
    splitColon (xs ++ ':' :: ys) = xs :: splitColon ys := by
  induction xs with
  | nil => simp [splitColon]
  | cons c xs ih =>
    have hc : ¬ c = ':' := fun hh => h (by simp [hh])
    simp only [List.cons_append, splitColon, hc, List.append_eq]
    rw [ih (fun hh => h (by simp [hh]))]
    simp [hc]

/-- C7: serializing a valid `FileKey` (32-byte salt, 12-byte nonce,
10-hex-character AEAD tag prefix) yields the 100-character
`hex(salt):hex(nonce):aead` form and deserializing gives the key back;
`deserialize` rejects every string whose length is not 100, and any string
it accepts decodes to parts of exactly the right lengths. -/
theorem C7_filekey_roundtrip :
    (∀ k : FileKey, k.valid →
        FileKey.deserialize (FileKey.serialize k) = .ok k ∧
        (FileKey.serialize k).length = 100) ∧
    (∀ s : Str, s.length ≠ 100 →
        FileKey.deserialize s = .error "Invalid file key: incorrect length") ∧
    (∀ (s : Str) (k : FileKey), FileKey.deserialize s = .ok k →
        s.length = 100 ∧ k.salt.length = 32 ∧ k.nonce.length = 12 ∧ k.aead.length = 10) := by
  refine ⟨?_, ?_, ?_⟩
  · rintro ⟨salt, nonce, aead⟩ ⟨hs, hsb, hn, hnb, ha, hac⟩
    simp only [FileKey.valid] at *
    have hanc : ':' ∉ aead := by
      intro hc
      rcases hac ':' hc with ⟨_, h2⟩ | ⟨h1, _⟩
      · exact absurd h2 (by decide)
      · exact absurd h1 (by decide)
    have hsplit : splitColon (FileKey.serialize ⟨salt, nonce, aead⟩)
        = [hexEncode salt, hexEncode nonce, aead] := by
      have e1 : FileKey.serialize ⟨salt, nonce, aead⟩
          = hexEncode salt ++ ':' :: (hexEncode nonce ++ ':' :: aead) := by
        simp [FileKey.serialize]
      rw [e1, splitColon_append _ _ (hexEncode_no_colon _ hsb),
          splitColon_append _ _ (hexEncode_no_colon _ hnb),
          splitColon_no_colon _ hanc]
    have hlen : (FileKey.serialize ⟨salt, nonce, aead⟩).length = 100 := by
      simp [FileKey.serialize, List.length_append, hexEncode_length, hs, hn, ha,
            SALT_LEN, NONCE_LEN, AEAD_LEN]
    refine ⟨?_, hlen⟩
    simp [FileKey.deserialize, hlen, hsplit, hexDecode_hexEncode _ hsb,
          hexDecode_hexEncode _ hnb, hs, hn, ha, SALT_LEN, NONCE_LEN, AEAD_LEN]
  · intro s h
    simp [FileKey.deserialize, h]
  · intro s k h
    simp only [FileKey.deserialize, SALT_LEN, NONCE_LEN, AEAD_LEN] at h
    split at h
    · cases h
    · split at h
      · cases h
      · split at h
        · cases h
        · rename_i hlen hparts salt hsalt
          split at h
          · cases h
          · split at h
            · cases h
            · rename_i hsl nonce hnonce
              split at h
              · cases h
              · split at h
                · cases h
                · rename_i hnl hal
                  cases h
                  dsimp only
                  exact ⟨by omega, by omega, by omega, by omega⟩

def exC7Key : FileKey :=
  { salt := List.replicate 32 171, nonce := List.replicate 12 1, aead := "0123456789".toList }

/-- Closed instance of `C7_filekey_roundtrip` at a concrete key plus the
rejection of a wrong-length string. -/
theorem C7_filekey_roundtrip_witness :
    FileKey.deserialize (FileKey.serialize exC7Key) = .ok exC7Key ∧
    (FileKey.serialize exC7Key).length = 100 ∧
    FileKey.deserialize ['x'] = .error "Invalid file key: incorrect length" := by
  have h := C7_filekey_roundtrip.1 exC7Key (by unfold FileKey.valid; decide)
  exact ⟨h.1, h.2, C7_filekey_roundtrip.2.1 ['x'] (by decide)⟩

end InnerFS
